import Mathlib

/-!
Verification of the SNS send-message core (`src/sns.ts`).

The TypeScript module is embedded shallowly:

* JavaScript exceptions become `Except Thrown`; the `Thrown` type records the
  `error instanceof Error ? error.message : String(error)` distinction used by
  every `catch` block in the source.
* JavaScript string truthiness (`if (config.subject)`, `!messageGroupId`) is
  `optTruthy`: an optional string is truthy exactly when present and non-empty.
* `JSON.parse` is modelled by the executable `jsonParse` below (the platform
  JSON grammar); parsed values live in the `Json` inductive, with numbers kept
  as their source text (the embedding never needs floating-point arithmetic,
  only truthiness and stringification of JSON tokens).
* `Buffer.byteLength(s, 'utf8')` is `String.utf8ByteSize`.
-/

namespace SnsSend

/-- A thrown JavaScript value as the `catch` blocks of the source see it:
either an `Error` carrying a message, or any other value already rendered by
`String(...)`. -/
inductive Thrown where
  | error (message : String)
  | value (rendered : String)
deriving Repr, DecidableEq

/-- The `error instanceof Error ? error.message : String(error)` idiom used by
both `catch` blocks in `sns.ts`. -/
def extractMessage : Thrown → String
  | .error m => m
  | .value s => s

/-- JavaScript string-option truthiness: `undefined` and `""` are falsy,
every non-empty string is truthy. -/
def optTruthy : Option String → Bool
  | none => false
  | some s => !s.isEmpty

/-- `MessageConfig` from `sns.ts` (all optional fields are optional strings;
`messageAttributes` is a raw JSON-encoded string). -/
structure MessageConfig where
  topicArn : String
  message : String
  subject : Option String := none
  messageAttributes : Option String := none
  messageGroupId : Option String := none
  messageDeduplicationId : Option String := none
  messageStructure : Option String := none
deriving Repr, DecidableEq

/-- `MessageResult` from `sns.ts`. -/
structure MessageResult where
  success : Bool
  messageId : Option String := none
  sequenceNumber : Option String := none
  error : Option String := none
deriving Repr, DecidableEq

/-- One of the allowed characters of the `[a-z0-9-]+` region group of the ARN
regex (ASCII lowercase letter, ASCII digit, or hyphen). -/
def isRegionChar (c : Char) : Bool :=
  ('a' ≤ c && c ≤ 'z') || ('0' ≤ c && c ≤ '9') || c == '-'

/-- An ASCII digit, the JavaScript `\d` class (the regex has no `u` flag). -/
def isAsciiDigit (c : Char) : Bool :=
  '0' ≤ c && c ≤ '9'

/-- A JavaScript line terminator, the characters the regex metacharacter `.`
does not match: LF, CR, LINE SEPARATOR, PARAGRAPH SEPARATOR. -/
def isLineTerm (c : Char) : Bool :=
  c == '\n' || c == '\r' || c == '\u2028' || c == '\u2029'

/-- Consume an exact literal from the front of a character list, returning the
remainder on success. -/
def consumeLit : List Char → List Char → Option (List Char)
  | [], s => some s
  | _ :: _, [] => none
  | p :: ps, c :: cs => if p = c then consumeLit ps cs else none

/-- The `\d+:.+$` stage of the ARN regex: a non-empty maximal run of digits,
a colon, then a non-empty run of characters the metacharacter `.` accepts,
reaching the end of input. -/
def arnAfterAcct (r2 : List Char) : Bool :=
  match r2.dropWhile isAsciiDigit with
  | ':' :: name =>
    !(r2.takeWhile isAsciiDigit).isEmpty && !name.isEmpty &&
      name.all (fun c => !isLineTerm c)
  | _ => false

/-- The `[a-z0-9-]+:` stage of the regex followed by `arnAfterAcct`: a
non-empty maximal run of region characters, a colon, then the rest. -/
def arnAfterRegion (r0 : List Char) : Bool :=
  match r0.dropWhile isRegionChar with
  | ':' :: r2 => !(r0.takeWhile isRegionChar).isEmpty && arnAfterAcct r2
  | _ => false

/-- The test `/^arn:aws:sns:[a-z0-9-]+:\d+:.+$/.test(topicArn)` from
`validateTopicArn`, decided over the character list of the string.  The two
character-class groups cannot contain `:`, so the regex engine's greedy
matching is equivalent to taking maximal runs; `.` excludes line terminators
and `$` (no `m` flag) anchors at the very end of the input. -/
def arnTest (s : String) : Bool :=
  match consumeLit "arn:aws:sns:".toList s.toList with
  | none => false
  | some r0 => arnAfterRegion r0

/-- The error text of `validateTopicArn`. -/
def invalidArnMsg (topicArn : String) : String :=
  "Invalid topic ARN format: \"" ++ topicArn ++ "\". " ++
  "Expected format: arn:aws:sns:{region}:{account-id}:{topic-name}"

/-- `validateTopicArn` from `sns.ts`: throws unless the ARN matches the
pattern `^arn:aws:sns:[a-z0-9-]+:\d+:.+$`. -/
def validateTopicArn (topicArn : String) : Except Thrown Unit :=
  if arnTest topicArn then .ok () else .error (.error (invalidArnMsg topicArn))

/-- The error text of `validateMessage` (`maxSizeBytes = 256 * 1024`). -/
def messageSizeMsg (sizeInBytes : Nat) : String :=
  "Message size (" ++ toString sizeInBytes ++
  " bytes) exceeds maximum allowed size (" ++ toString (256 * 1024) ++
  " bytes / 256 KB)"

/-- `validateMessage` from `sns.ts`: rejects a body whose UTF-8 byte length
(`Buffer.byteLength(message, 'utf8')`) exceeds `256 * 1024` bytes. -/
def validateMessage (message : String) : Except Thrown Unit :=
  let sizeInBytes := message.utf8ByteSize
  let maxSizeBytes := 256 * 1024
  if sizeInBytes > maxSizeBytes then
    .error (.error (messageSizeMsg sizeInBytes))
  else .ok ()

/-- The error text of `validateMessageStructure`. -/
def invalidStructureMsg (messageStructure : String) : String :=
  "Invalid message-structure: \"" ++ messageStructure ++
  "\". Must be \"json\" or left empty."

/-- `validateMessageStructure` from `sns.ts`: a present value other than the
literal `"json"` is rejected. -/
def validateMessageStructure (messageStructure : Option String) : Except Thrown Unit :=
  match messageStructure with
  | none => .ok ()
  | some s => if s = "json" then .ok () else .error (.error (invalidStructureMsg s))

/-- The error text of `validateFifoTopic`. -/
def fifoGroupIdMsg : String :=
  "message-group-id is required for FIFO topics (topic ARN ends with .fifo)"

/-- `topicArn.endsWith('.fifo')`, computed over the character list: the last
five characters are `.fifo`.  (For this ASCII suffix the UTF-16 and the
scalar-value readings agree.) -/
def endsWithFifo (s : String) : Bool :=
  match s.toList.reverse with
  | 'o' :: 'f' :: 'i' :: 'f' :: '.' :: _ => true
  | _ => false

/-- `validateFifoTopic` from `sns.ts`.  `!messageGroupId` is JavaScript
truthiness, so an empty-string group id counts as missing.  The returned
`Bool` records whether the `core.warning` call on the non-FIFO-with-group-id
path fired (the source returns `void` and logs; the flag is the only
observable of that branch). -/
def validateFifoTopic (topicArn : String) (messageGroupId : Option String) :
    Except Thrown Bool :=
  let isFifo := endsWithFifo topicArn
  if isFifo && !optTruthy messageGroupId then
    .error (.error fifoGroupIdMsg)
  else if !isFifo && optTruthy messageGroupId then
    .ok true
  else
    .ok false

/-- A JSON value as produced by the platform JSON parser.  Numbers keep their
source text: the attribute code never does arithmetic on them, it only asks
for truthiness and for `String(...)` rendering. -/
inductive Json where
  | null
  | bool (b : Bool)
  | num (src : String)
  | str (s : String)
  | arr (elems : List Json)
  | obj (fields : List (String × Json))
deriving Repr

/-- Whether a JSON number token denotes zero: every digit of its mantissa is
`0` (the token grammar admits only digits, one dot, a sign and an exponent). -/
def jsNumIsZero (src : String) : Bool :=
  (src.toList.takeWhile fun c => !(c == 'e' || c == 'E')).all fun c =>
    c == '0' || c == '.' || c == '-' || c == '+'

/-- JavaScript truthiness of a JSON value (`!attr.DataType`). -/
def jsTruthy : Json → Bool
  | .null => false
  | .bool b => b
  | .num src => !jsNumIsZero src
  | .str s => !s.isEmpty
  | .arr _ => true
  | .obj _ => true

/-- Truthiness of a possibly-absent JSON value (`undefined` is falsy). -/
def jsTruthyO : Option Json → Bool
  | none => false
  | some j => jsTruthy j

mutual

/-- JavaScript `String(x)` applied to a JSON value: strings render as
themselves, numbers as their token text, arrays join their elements with
commas (`null` elements render empty), objects render `[object Object]`. -/
def jsToString : Json → String
  | .null => "null"
  | .bool true => "true"
  | .bool false => "false"
  | .num src => src
  | .str s => s
  | .arr xs => jsArrToString xs
  | .obj _ => "[object Object]"

/-- The `Array.prototype.join(",")` rendering used by `String(array)`. -/
def jsArrToString : List Json → String
  | [] => ""
  | [Json.null] => ""
  | [x] => jsToString x
  | Json.null :: xs => "," ++ jsArrToString xs
  | x :: xs => jsToString x ++ "," ++ jsArrToString xs

end

/-- Plain object-field lookup (first matching key); `none` on non-objects. -/
def objField : Json → String → Option Json
  | .obj fields, key => fields.lookup key
  | _, _ => none

/-- The TypeError text raised by reading a property of `null`. -/
def nullPropertyReadMsg (field : String) : String :=
  "Cannot read properties of null (reading \x27" ++ field ++ "\x27)"

/-- JavaScript property access `v.field` on a JSON value: reading a property
of `null` throws a TypeError, non-objects simply yield `undefined`. -/
def jsGetField (v : Json) (field : String) : Except Thrown (Option Json) :=
  match v with
  | .null => .error (.error (nullPropertyReadMsg field))
  | .obj fields => .ok (fields.lookup field)
  | _ => .ok none

/-- `Object.entries(parsed)` (and, in step with it, `Object.keys`): objects
yield their fields, arrays and strings yield index-keyed entries, `null`
throws, other primitives have no enumerable entries.  (The JavaScript
reordering that lists integer-like object keys first is not modelled; no
result below depends on entry order.) -/
def jsEntries : Json → Except Thrown (List (String × Json))
  | .obj fields => .ok fields
  | .arr xs => .ok (xs.enum.map fun p => (toString p.1, p.2))
  | .str s => .ok (s.toList.enum.map fun p => (toString p.1, Json.str (String.mk [p.2])))
  | .null => .error (.error "Cannot convert undefined or null to object")
  | _ => .ok []

/-- Value of one base64 alphabet character. -/
def b64Val (c : Char) : Option Nat :=
  if 'A' ≤ c && c ≤ 'Z' then some (c.toNat - 'A'.toNat)
  else if 'a' ≤ c && c ≤ 'z' then some (c.toNat - 'a'.toNat + 26)
  else if '0' ≤ c && c ≤ '9' then some (c.toNat - '0'.toNat + 52)
  else if c == '+' then some 62
  else if c == '/' then some 63
  else none

/-- Reassemble base64 sextets into bytes (a trailing group of two or three
sextets yields one or two bytes). -/
def b64Group : List Nat → List Nat
  | a :: b :: c :: d :: rest =>
    (a * 4 + b / 16) :: ((b % 16) * 16 + c / 4) :: ((c % 4) * 64 + d) :: b64Group rest
  | [a, b] => [a * 4 + b / 16]
  | [a, b, c] => [a * 4 + b / 16, (b % 16) * 16 + c / 4]
  | _ => []

/-- Node's forgiving base64 decoding (`Buffer.from(s, 'base64')`): characters
outside the alphabet, padding included, are skipped. -/
def base64Decode (s : String) : List Nat :=
  b64Group (s.toList.filterMap b64Val)

/-- The TypeError text raised by `Buffer.from` on a non-string input. -/
def bufferTypeErrorMsg : String :=
  "The first argument must be of type string or an instance of Buffer, " ++
  "ArrayBuffer, or Array or an Array-like Object."

/-- `Buffer.from(x, 'base64')` on a JSON value: strings decode; numbers,
booleans, objects and `null` throw a TypeError.  (Node additionally accepts
array-like byte inputs; that path is not modelled and every result below
restricts binary payloads to textual values.) -/
def bufferFromBase64 : Json → Except Thrown (List Nat)
  | .str s => .ok (base64Decode s)
  | _ => .error (.error bufferTypeErrorMsg)

/-- `MessageAttributeValue` from the provider SDK, as populated by
`parseMessageAttributes` (binary payloads are byte sequences). -/
structure MessageAttributeValue where
  DataType : String
  StringValue : Option String := none
  BinaryValue : Option (List Nat) := none
deriving Repr, DecidableEq

/-- The `validDataTypes` list from `parseMessageAttributes`. -/
def validDataTypes : List String := ["String", "Number", "Binary", "String.Array"]

/-- The missing-DataType error text. -/
def missingDataTypeMsg (key : String) : String :=
  "Missing DataType for attribute \"" ++ key ++ "\". Must be one of: " ++
  String.intercalate ", " validDataTypes

/-- The invalid-DataType error text. -/
def invalidDataTypeMsg (dataType key : String) : String :=
  "Invalid DataType \"" ++ dataType ++ "\" for attribute \"" ++ key ++
  "\". Must be one of: " ++ String.intercalate ", " validDataTypes

/-- The missing-StringValue error text. -/
def missingStringValueMsg (key dataType : String) : String :=
  "Missing StringValue for attribute \"" ++ key ++ "\" with DataType \"" ++
  dataType ++ "\""

/-- The missing-BinaryValue error text. -/
def missingBinaryValueMsg (key : String) : String :=
  "Missing BinaryValue for attribute \"" ++ key ++ "\" with DataType \"Binary\""

/-- The too-many-attributes error text. -/
def tooManyAttributesMsg (count : Nat) : String :=
  "Too many message attributes: " ++ toString count ++ ". Maximum allowed is 10."

/-- The body of the `for (const [key, value] of Object.entries(parsed))` loop
of `parseMessageAttributes`: validate `DataType`, require the value field the
type demands, then build the SDK attribute (copying `StringValue` through
`String(...)` whenever present, and decoding `BinaryValue` whenever
present). -/
def processAttr (key : String) (v : Json) : Except Thrown MessageAttributeValue :=
  match jsGetField v "DataType" with
  | .error e => .error e
  | .ok dtF =>
    if !jsTruthyO dtF then .error (.error (missingDataTypeMsg key))
    else
      match dtF with
      | some (Json.str d) =>
        if !validDataTypes.contains d then
          .error (.error (invalidDataTypeMsg d key))
        else
          match jsGetField v "StringValue", jsGetField v "BinaryValue" with
          | .error e, _ => .error e
          | .ok _, .error e => .error e
          | .ok svF, .ok bvF =>
            if (d == "String" || d == "Number" || d == "String.Array") && svF.isNone then
              .error (.error (missingStringValueMsg key d))
            else if d == "Binary" && bvF.isNone then
              .error (.error (missingBinaryValueMsg key))
            else
              match bvF with
              | none => .ok { DataType := d, StringValue := svF.map jsToString }
              | some bv =>
                match bufferFromBase64 bv with
                | .error e => .error e
                | .ok bytes =>
                  .ok { DataType := d, StringValue := svF.map jsToString,
                        BinaryValue := some bytes }
      | some dt => .error (.error (invalidDataTypeMsg (jsToString dt) key))
      | none => .error (.error (missingDataTypeMsg key))

/-- Run `processAttr` over the enumerated entries in order, stopping at the
first failure and keeping entry order in the produced mapping. -/
def processEntries :
    List (String × Json) → Except Thrown (List (String × MessageAttributeValue))
  | [] => .ok []
  | (key, v) :: rest =>
    match processAttr key v with
    | .error e => .error e
    | .ok attr =>
      match processEntries rest with
      | .error e => .error e
      | .ok tail => .ok ((key, attr) :: tail)

/-- JSON insignificant whitespace. -/
def isJsonWs (c : Char) : Bool :=
  c == '\x20' || c == '\x09' || c == '\x0a' || c == '\x0d'

/-- Value of one hexadecimal digit. -/
def hexDigitVal (c : Char) : Option Nat :=
  let n := c.toNat
  if 48 ≤ n ∧ n ≤ 57 then some (n - 48)
  else if 97 ≤ n ∧ n ≤ 102 then some (n - 87)
  else if 65 ≤ n ∧ n ≤ 70 then some (n - 55)
  else none

/-- Parse the body of a JSON string literal (the opening quote already
consumed), handling the escape sequences of the JSON grammar.  A proper
surrogate-escape pair combines into one scalar; a lone surrogate escape is
approximated by U+FFFD (a Lean `Char` cannot hold it).  Raw control
characters are rejected as the grammar demands. -/
def pStringChars : Nat → List Char → Option (List Char × List Char)
  | 0, _ => none
  | _, [] => none
  | _ + 1, '"' :: rest => some ([], rest)
  | fuel + 1, '\\' :: rest =>
    match rest with
    | '"' :: r => (pStringChars fuel r).map fun p => ('"' :: p.1, p.2)
    | '\\' :: r => (pStringChars fuel r).map fun p => ('\\' :: p.1, p.2)
    | '/' :: r => (pStringChars fuel r).map fun p => ('/' :: p.1, p.2)
    | 'b' :: r => (pStringChars fuel r).map fun p => ('\x08' :: p.1, p.2)
    | 'f' :: r => (pStringChars fuel r).map fun p => ('\x0c' :: p.1, p.2)
    | 'n' :: r => (pStringChars fuel r).map fun p => ('\n' :: p.1, p.2)
    | 'r' :: r => (pStringChars fuel r).map fun p => ('\r' :: p.1, p.2)
    | 't' :: r => (pStringChars fuel r).map fun p => ('\t' :: p.1, p.2)
    | 'u' :: h1 :: h2 :: h3 :: h4 :: r =>
      match hexDigitVal h1, hexDigitVal h2, hexDigitVal h3, hexDigitVal h4 with
      | some a, some b, some c, some d =>
        let code := ((a * 16 + b) * 16 + c) * 16 + d
        if 0xD800 ≤ code ∧ code ≤ 0xDBFF then
          match r with
          | '\\' :: 'u' :: g1 :: g2 :: g3 :: g4 :: r2 =>
            match hexDigitVal g1, hexDigitVal g2, hexDigitVal g3, hexDigitVal g4 with
            | some a2, some b2, some c2, some d2 =>
              let code2 := ((a2 * 16 + b2) * 16 + c2) * 16 + d2
              if 0xDC00 ≤ code2 ∧ code2 ≤ 0xDFFF then
                let cp := 0x10000 + (code - 0xD800) * 0x400 + (code2 - 0xDC00)
                (pStringChars fuel r2).map fun p => (Char.ofNat cp :: p.1, p.2)
              else (pStringChars fuel r).map fun p => ('\uFFFD' :: p.1, p.2)
            | _, _, _, _ => (pStringChars fuel r).map fun p => ('\uFFFD' :: p.1, p.2)
          | _ => (pStringChars fuel r).map fun p => ('\uFFFD' :: p.1, p.2)
        else if 0xDC00 ≤ code ∧ code ≤ 0xDFFF then
          (pStringChars fuel r).map fun p => ('\uFFFD' :: p.1, p.2)
        else
          (pStringChars fuel r).map fun p => (Char.ofNat code :: p.1, p.2)
      | _, _, _, _ => none
    | _ => none
  | fuel + 1, c :: rest =>
    if c.toNat < 0x20 then none
    else (pStringChars fuel rest).map fun p => (c :: p.1, p.2)

/-- Parse the optional fraction part of a JSON number, appending to the
accumulated token text. -/
def pFrac (acc : List Char) (l : List Char) : Option (List Char × List Char) :=
  match l with
  | '.' :: r =>
    let ds := r.takeWhile isAsciiDigit
    if ds.isEmpty then none
    else some (acc ++ '.' :: ds, r.dropWhile isAsciiDigit)
  | _ => some (acc, l)

/-- Parse the optional exponent part of a JSON number. -/
def pExp (acc : List Char) (l : List Char) : Option (List Char × List Char) :=
  match l with
  | e :: r =>
    if e = 'e' ∨ e = 'E' then
      match r with
      | '+' :: r2 =>
        let ds := r2.takeWhile isAsciiDigit
        if ds.isEmpty then none
        else some (acc ++ e :: '+' :: ds, r2.dropWhile isAsciiDigit)
      | '-' :: r2 =>
        let ds := r2.takeWhile isAsciiDigit
        if ds.isEmpty then none
        else some (acc ++ e :: '-' :: ds, r2.dropWhile isAsciiDigit)
      | _ =>
        let ds := r.takeWhile isAsciiDigit
        if ds.isEmpty then none
        else some (acc ++ e :: ds, r.dropWhile isAsciiDigit)
    else some (acc, l)
  | [] => some (acc, l)

/-- Parse a JSON number token (leading zeros rejected as in the grammar),
returning its source text. -/
def pNumber (l : List Char) : Option (String × List Char) :=
  let signed : List Char × List Char :=
    match l with
    | '-' :: r => (['-'], r)
    | _ => ([], l)
  let intPart : Option (List Char × List Char) :=
    match signed.2 with
    | '0' :: r2 => some (signed.1 ++ ['0'], r2)
    | c :: _ =>
      if isAsciiDigit c then
        some (signed.1 ++ signed.2.takeWhile isAsciiDigit,
              signed.2.dropWhile isAsciiDigit)
      else none
    | [] => none
  match intPart with
  | none => none
  | some (acc1, r1) =>
    match pFrac acc1 r1 with
    | none => none
    | some (acc2, r2) =>
      match pExp acc2 r2 with
      | none => none
      | some (acc3, r3) => some (String.mk acc3, r3)

/-- Record one parsed object member the way the platform parser does with a
duplicate key: the property keeps its first position but takes the last
value. -/
def insertField (fields : List (String × Json)) (key : String) (v : Json) :
    List (String × Json) :=
  if fields.any fun p => p.1 == key then
    fields.map fun p => if p.1 == key then (key, v) else p
  else fields ++ [(key, v)]

mutual

/-- Parse one JSON value (fuel-indexed recursive descent). -/
def pValue : Nat → List Char → Option (Json × List Char)
  | 0, _ => none
  | fuel + 1, cs =>
    match cs.dropWhile isJsonWs with
    | [] => none
    | '{' :: r =>
      (match r.dropWhile isJsonWs with
       | '}' :: r2 => some (Json.obj [], r2)
       | _ => pMembers fuel [] r)
    | '[' :: r =>
      (match r.dropWhile isJsonWs with
       | ']' :: r2 => some (Json.arr [], r2)
       | _ => pElements fuel [] r)
    | '"' :: r => (pStringChars (r.length + 1) r).map fun p => (Json.str (String.mk p.1), p.2)
    | 't' :: r => (consumeLit "rue".toList r).map fun r2 => (Json.bool true, r2)
    | 'f' :: r => (consumeLit "alse".toList r).map fun r2 => (Json.bool false, r2)
    | 'n' :: r => (consumeLit "ull".toList r).map fun r2 => (Json.null, r2)
    | c :: r =>
      if c = '-' ∨ isAsciiDigit c then
        (pNumber (c :: r)).map fun p => (Json.num p.1, p.2)
      else none

/-- Parse the members of a non-empty JSON object (the opening brace already
consumed). -/
def pMembers : Nat → List (String × Json) → List Char → Option (Json × List Char)
  | 0, _, _ => none
  | fuel + 1, acc, cs =>
    match cs.dropWhile isJsonWs with
    | '"' :: r =>
      (match pStringChars (r.length + 1) r with
       | none => none
       | some (kcs, r1) =>
         match r1.dropWhile isJsonWs with
         | ':' :: r2 =>
           (match pValue fuel r2 with
            | none => none
            | some (v, r3) =>
              let acc2 := insertField acc (String.mk kcs) v
              match r3.dropWhile isJsonWs with
              | ',' :: r4 => pMembers fuel acc2 r4
              | '}' :: r4 => some (Json.obj acc2, r4)
              | _ => none)
         | _ => none)
    | _ => none

/-- Parse the elements of a non-empty JSON array (the opening bracket already
consumed). -/
def pElements : Nat → List Json → List Char → Option (Json × List Char)
  | 0, _, _ => none
  | fuel + 1, acc, cs =>
    match pValue fuel cs with
    | none => none
    | some (v, r) =>
      match r.dropWhile isJsonWs with
      | ',' :: r2 => pElements fuel (acc ++ [v]) r2
      | ']' :: r2 => some (Json.arr (acc ++ [v]), r2)
      | _ => none

end

/-- The platform JSON parser's SyntaxError surfaces through the wrapper's
`error.message`; the exact text is engine-specific and modelled by a fixed
message. -/
def jsonSyntaxErrMsg : String := "Unexpected token in JSON"

/-- `JSON.parse`, modelled as an executable recursive-descent parser of the
JSON grammar (the fuel bound of twice the input length dominates the
recursion depth). -/
def jsonParse (s : String) : Except Thrown Json :=
  match pValue (s.length * 2 + 2) s.toList with
  | some (j, rest) =>
    if (rest.dropWhile isJsonWs).isEmpty then .ok j
    else .error (.error jsonSyntaxErrMsg)
  | none => .error (.error jsonSyntaxErrMsg)

/-- The body of the `try` block of `parseMessageAttributes`: parse the JSON
text, reject more than ten enumerated entries, then process each entry. -/
def parseAttributesInner (attributesJson : String) :
    Except Thrown (List (String × MessageAttributeValue)) :=
  match jsonParse attributesJson with
  | .error e => .error e
  | .ok parsed =>
    match jsEntries parsed with
    | .error e => .error e
    | .ok entries =>
      if entries.length > 10 then
        .error (.error (tooManyAttributesMsg entries.length))
      else processEntries entries

/-- `parseMessageAttributes` from `sns.ts`: any failure inside the `try`
block is re-thrown wrapped in a single `Failed to parse message attributes:`
error. -/
def parseMessageAttributes (attributesJson : String) :
    Except Thrown (List (String × MessageAttributeValue)) :=
  match parseAttributesInner attributesJson with
  | .ok attributes => .ok attributes
  | .error e =>
    .error (.error ("Failed to parse message attributes: " ++ extractMessage e))

/-- `PublishCommandInput` from the provider SDK, restricted to the fields the
repository can reach (`TargetArn` and `PhoneNumber` exist on the SDK type but
are never populated by this code). -/
structure PublishCommandInput where
  TopicArn : String
  Message : String
  Subject : Option String := none
  MessageAttributes : Option (List (String × MessageAttributeValue)) := none
  MessageStructure : Option String := none
  MessageGroupId : Option String := none
  MessageDeduplicationId : Option String := none
  TargetArn : Option String := none
  PhoneNumber : Option String := none
deriving Repr, DecidableEq

/-- The provider's publish response (`MessageId` is optional on the SDK type;
`SequenceNumber` appears only for FIFO topics). -/
structure PublishResponse where
  MessageId : Option String := none
  SequenceNumber : Option String := none
deriving Repr, DecidableEq

/-- The `try` block of `publishMessage`: the four validators in source order,
then the command input built field by field (each optional field added only
when truthy, attributes parsed on demand), then the remote call. -/
def publishAttempt (send : PublishCommandInput → Except Thrown PublishResponse)
    (config : MessageConfig) : Except Thrown MessageResult :=
  match validateTopicArn config.topicArn with
  | .error e => .error e
  | .ok _ =>
    match validateMessage config.message with
    | .error e => .error e
    | .ok _ =>
      match validateMessageStructure config.messageStructure with
      | .error e => .error e
      | .ok _ =>
        match validateFifoTopic config.topicArn config.messageGroupId with
        | .error e => .error e
        | .ok _warned =>
          let input : PublishCommandInput :=
            { TopicArn := config.topicArn, Message := config.message }
          let input :=
            if optTruthy config.subject then { input with Subject := config.subject }
            else input
          match (if optTruthy config.messageAttributes then
                   match parseMessageAttributes (config.messageAttributes.getD "") with
                   | .error e => .error e
                   | .ok attrs => .ok { input with MessageAttributes := some attrs }
                 else .ok input : Except Thrown PublishCommandInput) with
          | .error e => .error e
          | .ok input =>
            let input :=
              if optTruthy config.messageStructure then
                { input with MessageStructure := config.messageStructure }
              else input
            let input :=
              if optTruthy config.messageGroupId then
                { input with MessageGroupId := config.messageGroupId }
              else input
            let input :=
              if optTruthy config.messageDeduplicationId then
                { input with MessageDeduplicationId := config.messageDeduplicationId }
              else input
            match send input with
            | .error e => .error e
            | .ok response =>
              .ok { success := true, messageId := response.MessageId,
                    sequenceNumber := response.SequenceNumber }

/-- `publishMessage` from `sns.ts`: the `catch` block turns any thrown value
into a failure result carrying the extracted message. -/
def publishMessage (send : PublishCommandInput → Except Thrown PublishResponse)
    (config : MessageConfig) : MessageResult :=
  match publishAttempt send config with
  | .ok result => result
  | .error e => { success := false, error := some (extractMessage e) }

/-- The ARN shape exactly as the specification words it: the string is
`arn:aws:sns:<region>:<account-id>:<name>` where the region is one or more
lowercase letters, digits, or hyphens, the account id is one or more digits,
and the name is ANY non-empty remainder. -/
def arnSpecMatch (s : String) : Prop :=
  ∃ region acct name : String,
    s = "arn:aws:sns:" ++ region ++ ":" ++ acct ++ ":" ++ name ∧
    region ≠ "" ∧ region.toList.all isRegionChar = true ∧
    acct ≠ "" ∧ acct.toList.all isAsciiDigit = true ∧
    name ≠ ""

/-- The ARN shape the code actually accepts: as `arnSpecMatch`, except that
the name also may not contain a line terminator (the regex `.` never matches
one, and `$` is anchored at the true end of input). -/
def arnCodeMatch (s : String) : Prop :=
  ∃ region acct name : String,
    s = "arn:aws:sns:" ++ region ++ ":" ++ acct ++ ":" ++ name ∧
    region ≠ "" ∧ region.toList.all isRegionChar = true ∧
    acct ≠ "" ∧ acct.toList.all isAsciiDigit = true ∧
    name ≠ "" ∧ name.toList.all (fun c => !isLineTerm c) = true

/-- The attribute-value schema as the specification words it: a `DataType`
drawn from the closed enum, a `StringValue` field present for the three
textual types, a `BinaryValue` field present for `Binary`. -/
def attrSchemaOk (v : Json) : Bool :=
  match objField v "DataType" with
  | some (Json.str d) =>
    validDataTypes.contains d &&
    (if d == "Binary" then (objField v "BinaryValue").isSome
     else (objField v "StringValue").isSome)
  | _ => false

/-- The value's `BinaryValue` field, when present, holds text.  This is the
domain on which `Buffer.from(_, 'base64')` is modelled (non-string payloads
throw; Node's byte-array inputs are out of scope). -/
def textualPayloads (v : Json) : Bool :=
  match objField v "BinaryValue" with
  | some (Json.str _) => true
  | some _ => false
  | none => true

/-- The publish request `publishMessage` assembles when every validation
passes: topic ARN and message always, each optional field exactly when the
caller supplied a truthy (present and non-empty) value, and nothing else. -/
def builtInput (config : MessageConfig)
    (attrs : Option (List (String × MessageAttributeValue))) : PublishCommandInput :=
  { TopicArn := config.topicArn
    Message := config.message
    Subject := if optTruthy config.subject then config.subject else none
    MessageAttributes := attrs
    MessageStructure :=
      if optTruthy config.messageStructure then config.messageStructure else none
    MessageGroupId :=
      if optTruthy config.messageGroupId then config.messageGroupId else none
    MessageDeduplicationId :=
      if optTruthy config.messageDeduplicationId then config.messageDeduplicationId
      else none }

/-- The failure result produced when a value `e` is thrown before or during
the remote call. -/
def failureOf (e : Thrown) : MessageResult :=
  { success := false, error := some (extractMessage e) }

/-- The result produced from a successful provider response. -/
def successOf (response : PublishResponse) : MessageResult :=
  { success := true, messageId := response.MessageId,
    sequenceNumber := response.SequenceNumber }

theorem publishMessage_of_attempt_error {send : PublishCommandInput → Except Thrown PublishResponse}
    {config : MessageConfig} {e : Thrown} (h : publishAttempt send config = .error e) :
    publishMessage send config = failureOf e := by
  simp [publishMessage, h, failureOf]

theorem publishAttempt_arn_error {config : MessageConfig} {e : Thrown}
    (send : PublishCommandInput → Except Thrown PublishResponse)
    (h : validateTopicArn config.topicArn = .error e) :
    publishAttempt send config = .error e := by
  simp [publishAttempt, h]

theorem publishAttempt_size_error {config : MessageConfig} {e : Thrown}
    (send : PublishCommandInput → Except Thrown PublishResponse)
    (h1 : validateTopicArn config.topicArn = .ok ())
    (h : validateMessage config.message = .error e) :
    publishAttempt send config = .error e := by
  simp [publishAttempt, h1, h]

theorem publishAttempt_structure_error {config : MessageConfig} {e : Thrown}
    (send : PublishCommandInput → Except Thrown PublishResponse)
    (h1 : validateTopicArn config.topicArn = .ok ())
    (h2 : validateMessage config.message = .ok ())
    (h : validateMessageStructure config.messageStructure = .error e) :
    publishAttempt send config = .error e := by
  simp [publishAttempt, h1, h2, h]

theorem publishAttempt_fifo_error {config : MessageConfig} {e : Thrown}
    (send : PublishCommandInput → Except Thrown PublishResponse)
    (h1 : validateTopicArn config.topicArn = .ok ())
    (h2 : validateMessage config.message = .ok ())
    (h3 : validateMessageStructure config.messageStructure = .ok ())
    (h : validateFifoTopic config.topicArn config.messageGroupId = .error e) :
    publishAttempt send config = .error e := by
  simp [publishAttempt, h1, h2, h3, h]

theorem publishAttempt_attrs_error {config : MessageConfig} {e : Thrown} {w : Bool}
    (send : PublishCommandInput → Except Thrown PublishResponse)
    (h1 : validateTopicArn config.topicArn = .ok ())
    (h2 : validateMessage config.message = .ok ())
    (h3 : validateMessageStructure config.messageStructure = .ok ())
    (h4 : validateFifoTopic config.topicArn config.messageGroupId = .ok w)
    (hT : optTruthy config.messageAttributes = true)
    (h : parseMessageAttributes (config.messageAttributes.getD "") = .error e) :
    publishAttempt send config = .error e := by
  simp [publishAttempt, h1, h2, h3, h4, hT, h]

theorem publishAttempt_sends_built {config : MessageConfig} {w : Bool}
    {attrsOpt : Option (List (String × MessageAttributeValue))}
    (send : PublishCommandInput → Except Thrown PublishResponse)
    (h1 : validateTopicArn config.topicArn = .ok ())
    (h2 : validateMessage config.message = .ok ())
    (h3 : validateMessageStructure config.messageStructure = .ok ())
    (h4 : validateFifoTopic config.topicArn config.messageGroupId = .ok w)
    (hA : (optTruthy config.messageAttributes = false ∧ attrsOpt = none) ∨
      (optTruthy config.messageAttributes = true ∧ ∃ attrs,
        parseMessageAttributes (config.messageAttributes.getD "") = .ok attrs ∧
        attrsOpt = some attrs)) :
    publishAttempt send config =
      match send (builtInput config attrsOpt) with
      | .error e => .error e
      | .ok response => .ok (successOf response) := by
  rcases hA with ⟨hT, rfl⟩ | ⟨hT, attrs, hP, rfl⟩
  · simp only [publishAttempt, h1, h2, h3, h4, hT, Bool.false_eq_true, if_false]
    by_cases hs : optTruthy config.subject <;>
    by_cases hstr : optTruthy config.messageStructure <;>
    by_cases hg : optTruthy config.messageGroupId <;>
    by_cases hd : optTruthy config.messageDeduplicationId <;>
    simp [hs, hstr, hg, hd, builtInput, successOf]
  · simp only [publishAttempt, h1, h2, h3, h4, hT, hP, if_true]
    by_cases hs : optTruthy config.subject <;>
    by_cases hstr : optTruthy config.messageStructure <;>
    by_cases hg : optTruthy config.messageGroupId <;>
    by_cases hd : optTruthy config.messageDeduplicationId <;>
    simp [hs, hstr, hg, hd, builtInput, successOf]

/-- Claim C1: the validators run in the fixed order ARN, size, structure,
FIFO-preconditions, then the attribute parse; the first failure determines
the failure result, and in every such case the result is the same for every
collaborator `send` — no remote call is consulted. -/
theorem publishMessage_validation_short_circuits (config : MessageConfig) :
    (∀ e, validateTopicArn config.topicArn = .error e →
      ∀ send, publishMessage send config = failureOf e) ∧
    (validateTopicArn config.topicArn = .ok () →
      ∀ e, validateMessage config.message = .error e →
      ∀ send, publishMessage send config = failureOf e) ∧
    (validateTopicArn config.topicArn = .ok () →
      validateMessage config.message = .ok () →
      ∀ e, validateMessageStructure config.messageStructure = .error e →
      ∀ send, publishMessage send config = failureOf e) ∧
    (validateTopicArn config.topicArn = .ok () →
      validateMessage config.message = .ok () →
      validateMessageStructure config.messageStructure = .ok () →
      ∀ e, validateFifoTopic config.topicArn config.messageGroupId = .error e →
      ∀ send, publishMessage send config = failureOf e) ∧
    (∀ w, validateTopicArn config.topicArn = .ok () →
      validateMessage config.message = .ok () →
      validateMessageStructure config.messageStructure = .ok () →
      validateFifoTopic config.topicArn config.messageGroupId = .ok w →
      optTruthy config.messageAttributes = true →
      ∀ e, parseMessageAttributes (config.messageAttributes.getD "") = .error e →
      ∀ send, publishMessage send config = failureOf e) := by
  refine ⟨?_, ?_, ?_, ?_, ?_⟩
  · intro e h send
    exact publishMessage_of_attempt_error (publishAttempt_arn_error send h)
  · intro h1 e h send
    exact publishMessage_of_attempt_error (publishAttempt_size_error send h1 h)
  · intro h1 h2 e h send
    exact publishMessage_of_attempt_error (publishAttempt_structure_error send h1 h2 h)
  · intro h1 h2 h3 e h send
    exact publishMessage_of_attempt_error (publishAttempt_fifo_error send h1 h2 h3 h)
  · intro w h1 h2 h3 h4 hT e h send
    exact publishMessage_of_attempt_error (publishAttempt_attrs_error send h1 h2 h3 h4 hT h)

/-- Witness for claim C1: a malformed ARN fails without consulting the
collaborator, and so does a well-formed config whose attribute JSON does not
parse. -/
theorem publishMessage_validation_short_circuits_witness :
    publishMessage (fun _ => .ok { MessageId := some "m-1" })
        { topicArn := "bad", message := "m" } =
      failureOf (.error (invalidArnMsg "bad")) ∧
    publishMessage (fun _ => .ok { MessageId := some "m-1" })
        { topicArn := "arn:aws:sns:us-east-1:123456789012:t", message := "m",
          messageAttributes := some "not json" } =
      failureOf (.error "Failed to parse message attributes: Unexpected token in JSON") :=
  ⟨(publishMessage_validation_short_circuits _).1 _ (by rfl) _,
   (publishMessage_validation_short_circuits _).2.2.2.2 false (by rfl) (by rfl)
     (by rfl) (by rfl) (by rfl) _ (by rfl) _⟩

theorem publishAttempt_cases (send : PublishCommandInput → Except Thrown PublishResponse)
    (config : MessageConfig) :
    (∃ e, publishAttempt send config = .error e) ∨
    (∃ i r, send i = .ok r ∧ publishAttempt send config = .ok (successOf r)) := by
  cases h1 : validateTopicArn config.topicArn with
  | error e => exact Or.inl ⟨e, publishAttempt_arn_error send h1⟩
  | ok u =>
    cases u
    cases h2 : validateMessage config.message with
    | error e => exact Or.inl ⟨e, publishAttempt_size_error send h1 h2⟩
    | ok u =>
      cases u
      cases h3 : validateMessageStructure config.messageStructure with
      | error e => exact Or.inl ⟨e, publishAttempt_structure_error send h1 h2 h3⟩
      | ok u =>
        cases u
        cases h4 : validateFifoTopic config.topicArn config.messageGroupId with
        | error e => exact Or.inl ⟨e, publishAttempt_fifo_error send h1 h2 h3 h4⟩
        | ok w =>
          by_cases hT : optTruthy config.messageAttributes = true
          · cases hP : parseMessageAttributes (config.messageAttributes.getD "") with
            | error e => exact Or.inl ⟨e, publishAttempt_attrs_error send h1 h2 h3 h4 hT hP⟩
            | ok attrs =>
              have hb := publishAttempt_sends_built send h1 h2 h3 h4
                (Or.inr ⟨hT, attrs, hP, rfl⟩)
              cases hs : send (builtInput config (some attrs)) with
              | error e => exact Or.inl ⟨e, by rw [hb, hs]⟩
              | ok r => exact Or.inr ⟨_, r, hs, by rw [hb, hs]⟩
          · have hb := publishAttempt_sends_built send h1 h2 h3 h4
              (Or.inl ⟨by simpa using hT, rfl⟩)
            cases hs : send (builtInput config none) with
            | error e => exact Or.inl ⟨e, by rw [hb, hs]⟩
            | ok r => exact Or.inr ⟨_, r, hs, by rw [hb, hs]⟩

/-- Claim C2: for every config and every collaborator, `publishMessage`
returns a `MessageResult` in exactly one of two shapes — a success whose
message id comes from the provider response (present whenever the provider
assigns one, as its contract promises) and whose sequence number is exactly
the one the response carried, or a failure carrying an error message with no
id and no sequence number.  Thrown collaborator failures are captured, never
propagated. -/
theorem publishMessage_result_shape
    (send : PublishCommandInput → Except Thrown PublishResponse)
    (config : MessageConfig)
    (hid : ∀ i r, send i = .ok r → r.MessageId.isSome = true) :
    ((publishMessage send config).success = true ∧
      (publishMessage send config).error = none ∧
      (publishMessage send config).messageId.isSome = true ∧
      ∃ i r, send i = .ok r ∧
        (publishMessage send config).messageId = r.MessageId ∧
        (publishMessage send config).sequenceNumber = r.SequenceNumber) ∨
    ((publishMessage send config).success = false ∧
      (publishMessage send config).messageId = none ∧
      (publishMessage send config).sequenceNumber = none ∧
      ∃ e, (publishMessage send config).error = some e) := by
  rcases publishAttempt_cases send config with ⟨e, h⟩ | ⟨i, r, hs, h⟩
  · right
    rw [publishMessage_of_attempt_error h]
    exact ⟨rfl, rfl, rfl, extractMessage e, rfl⟩
  · left
    have hpm : publishMessage send config = successOf r := by
      simp [publishMessage, h]
    rw [hpm]
    exact ⟨rfl, rfl, hid i r hs, i, r, hs, rfl, rfl⟩

/-- Witness for claim C2: with a collaborator that assigns an id, the success
result carries it. -/
theorem publishMessage_result_shape_witness :
    (publishMessage (fun _ => .ok { MessageId := some "m-1" })
      { topicArn := "arn:aws:sns:us-east-1:123456789012:t",
        message := "hello" }).messageId.isSome = true := by
  rcases publishMessage_result_shape (fun _ => .ok { MessageId := some "m-1" })
      { topicArn := "arn:aws:sns:us-east-1:123456789012:t", message := "hello" }
      (by intro i r h; injection h with h'; subst h'; rfl) with h | h
  · exact h.2.2.1
  · exact absurd h.1 (by decide)

/-- Claim C7: when every validation passes, the collaborator is handed
exactly `builtInput` — topic ARN and message always; subject, attributes,
structure mode, group id and deduplication id each exactly when the caller
supplied a non-empty value; the remaining SDK fields stay unset — and the
result maps the collaborator's outcome. -/
theorem publishMessage_builds_request {config : MessageConfig} {w : Bool}
    {attrsOpt : Option (List (String × MessageAttributeValue))}
    (h1 : validateTopicArn config.topicArn = .ok ())
    (h2 : validateMessage config.message = .ok ())
    (h3 : validateMessageStructure config.messageStructure = .ok ())
    (h4 : validateFifoTopic config.topicArn config.messageGroupId = .ok w)
    (hA : (optTruthy config.messageAttributes = false ∧ attrsOpt = none) ∨
      (optTruthy config.messageAttributes = true ∧ ∃ attrs,
        parseMessageAttributes (config.messageAttributes.getD "") = .ok attrs ∧
        attrsOpt = some attrs))
    (send : PublishCommandInput → Except Thrown PublishResponse) :
    (∀ r, send (builtInput config attrsOpt) = .ok r →
        publishMessage send config = successOf r) ∧
    (∀ e, send (builtInput config attrsOpt) = .error e →
        publishMessage send config = failureOf e) ∧
    (builtInput config attrsOpt).TopicArn = config.topicArn ∧
    (builtInput config attrsOpt).Message = config.message ∧
    (builtInput config attrsOpt).Subject.isSome = optTruthy config.subject ∧
    (builtInput config attrsOpt).MessageAttributes.isSome =
      optTruthy config.messageAttributes ∧
    (builtInput config attrsOpt).MessageStructure.isSome =
      optTruthy config.messageStructure ∧
    (builtInput config attrsOpt).MessageGroupId.isSome =
      optTruthy config.messageGroupId ∧
    (builtInput config attrsOpt).MessageDeduplicationId.isSome =
      optTruthy config.messageDeduplicationId ∧
    (builtInput config attrsOpt).TargetArn = none ∧
    (builtInput config attrsOpt).PhoneNumber = none := by
  have hb := publishAttempt_sends_built send h1 h2 h3 h4 hA
  refine ⟨?_, ?_, rfl, rfl, ?_, ?_, ?_, ?_, ?_, rfl, rfl⟩
  · intro r hs
    simp [publishMessage, hb, hs, successOf]
  · intro e hs
    simp [publishMessage, hb, hs, failureOf]
  · cases hsub : config.subject with
    | none => simp [builtInput, optTruthy, hsub]
    | some s => cases he : s.isEmpty <;> simp [builtInput, optTruthy, hsub, he]
  · rcases hA with ⟨hT, rfl⟩ | ⟨hT, attrs, _, rfl⟩ <;> simp [builtInput, hT]
  · cases hstr : config.messageStructure with
    | none => simp [builtInput, optTruthy, hstr]
    | some s => cases he : s.isEmpty <;> simp [builtInput, optTruthy, hstr, he]
  · cases hg : config.messageGroupId with
    | none => simp [builtInput, optTruthy, hg]
    | some s => cases he : s.isEmpty <;> simp [builtInput, optTruthy, hg, he]
  · cases hd : config.messageDeduplicationId with
    | none => simp [builtInput, optTruthy, hd]
    | some s => cases he : s.isEmpty <;> simp [builtInput, optTruthy, hd, he]

/-- Witness for claim C7: a config supplying every optional field non-empty
reaches the collaborator as the fully-populated request, and the FIFO
response's sequence number is carried through. -/
theorem publishMessage_builds_request_witness :
    publishMessage
        (fun _ => .ok { MessageId := some "m-1", SequenceNumber := some "7" })
        { topicArn := "arn:aws:sns:us-east-1:123456789012:t.fifo", message := "m",
          subject := some "s",
          messageAttributes := some "\x7b\"a\":\x7b\"DataType\":\"String\",\"StringValue\":\"x\"\x7d\x7d",
          messageGroupId := some "g1", messageDeduplicationId := some "d1",
          messageStructure := some "json" } =
      successOf { MessageId := some "m-1", SequenceNumber := some "7" } :=
  (@publishMessage_builds_request
    { topicArn := "arn:aws:sns:us-east-1:123456789012:t.fifo", message := "m",
      subject := some "s",
      messageAttributes := some "\x7b\"a\":\x7b\"DataType\":\"String\",\"StringValue\":\"x\"\x7d\x7d",
      messageGroupId := some "g1", messageDeduplicationId := some "d1",
      messageStructure := some "json" }
    false (some [("a", { DataType := "String", StringValue := some "x" })])
    (by rfl) (by rfl) (by rfl) (by rfl)
    (Or.inr ⟨by rfl, [("a", { DataType := "String", StringValue := some "x" })],
      by rfl, rfl⟩) _).1 _ rfl

/-- Claim C5: `validateFifoTopic` fails (group id required) exactly when the
ARN ends in `.fifo` and no non-empty group id is supplied; a non-FIFO ARN
never fails there, merely warns when a group id is supplied; and a supplied
group id is still carried in the assembled request. -/
theorem validateFifoTopic_spec :
    (∀ arn g, validateFifoTopic arn g = .error (.error fifoGroupIdMsg) ↔
        endsWithFifo arn = true ∧ optTruthy g = false) ∧
    (∀ arn g, endsWithFifo arn = false →
        validateFifoTopic arn g = .ok (optTruthy g)) ∧
    (∀ (config : MessageConfig) (w : Bool)
        (attrsOpt : Option (List (String × MessageAttributeValue)))
        (send : PublishCommandInput → Except Thrown PublishResponse),
      validateTopicArn config.topicArn = .ok () →
      validateMessage config.message = .ok () →
      validateMessageStructure config.messageStructure = .ok () →
      validateFifoTopic config.topicArn config.messageGroupId = .ok w →
      (optTruthy config.messageAttributes = false ∧ attrsOpt = none) ∨
        (optTruthy config.messageAttributes = true ∧ ∃ attrs,
          parseMessageAttributes (config.messageAttributes.getD "") = .ok attrs ∧
          attrsOpt = some attrs) →
      optTruthy config.messageGroupId = true →
      (builtInput config attrsOpt).MessageGroupId = config.messageGroupId ∧
      publishAttempt send config =
        match send (builtInput config attrsOpt) with
        | .error e => .error e
        | .ok response => .ok (successOf response)) := by
  refine ⟨?_, ?_, ?_⟩
  · intro arn g
    by_cases hf : endsWithFifo arn = true <;>
      by_cases hg : optTruthy g = true <;>
      simp [validateFifoTopic, hf, hg]
  · intro arn g hf
    cases hg : optTruthy g <;> simp [validateFifoTopic, hf, hg]
  · intro config w attrsOpt send h1 h2 h3 h4 hA hg
    exact ⟨by simp [builtInput, hg],
      publishAttempt_sends_built send h1 h2 h3 h4 hA⟩

/-- Witness for claim C5: a standard-topic config with group id `"g1"`
passes the FIFO validator with a warning and the group id reaches the
request. -/
theorem validateFifoTopic_spec_witness :
    (builtInput
        { topicArn := "arn:aws:sns:us-east-1:123456789012:t", message := "m",
          messageGroupId := some "g1" } none).MessageGroupId = some "g1" :=
  (validateFifoTopic_spec.2.2
    { topicArn := "arn:aws:sns:us-east-1:123456789012:t", message := "m",
      messageGroupId := some "g1" } true none
    (fun _ => .ok { MessageId := some "m-1" })
    (by rfl) (by rfl) (by rfl) (by rfl) (Or.inl ⟨rfl, rfl⟩) rfl).1

/-- Claim C10: on a FIFO topic an empty-string group id behaves exactly like
an absent one — `validateFifoTopic` (and hence `publishMessage`) fails with
the group-id-required error either way. -/
theorem emptyGroupId_treated_as_absent :
    (∀ arn, endsWithFifo arn = true →
      validateFifoTopic arn (some "") = .error (.error fifoGroupIdMsg) ∧
      validateFifoTopic arn (some "") = validateFifoTopic arn none) ∧
    (∀ (config : MessageConfig)
        (send : PublishCommandInput → Except Thrown PublishResponse),
      endsWithFifo config.topicArn = true →
      config.messageGroupId = some "" →
      validateTopicArn config.topicArn = .ok () →
      validateMessage config.message = .ok () →
      validateMessageStructure config.messageStructure = .ok () →
      publishMessage send config = failureOf (.error fifoGroupIdMsg) ∧
      publishMessage send { config with messageGroupId := none } =
        failureOf (.error fifoGroupIdMsg)) := by
  have he : optTruthy (some "") = false := by decide
  have hn : optTruthy (none : Option String) = false := rfl
  constructor
  · intro arn hf
    constructor <;> simp [validateFifoTopic, hf, he, hn]
  · intro config send hf hgid h1 h2 h3
    have hfail : validateFifoTopic config.topicArn config.messageGroupId =
        .error (.error fifoGroupIdMsg) := by
      rw [hgid]; simp [validateFifoTopic, hf, he]
    have hfail2 : validateFifoTopic config.topicArn (none : Option String) =
        .error (.error fifoGroupIdMsg) := by
      simp [validateFifoTopic, hf, optTruthy]
    refine ⟨publishMessage_of_attempt_error
        (publishAttempt_fifo_error send h1 h2 h3 hfail), ?_⟩
    exact publishMessage_of_attempt_error
      (publishAttempt_fifo_error send h1 h2 h3 hfail2)

/-- Witness for claim C10: a concrete FIFO config with an empty-string group
id fails exactly like its group-id-free counterpart. -/
theorem emptyGroupId_treated_as_absent_witness :
    publishMessage (fun _ => .ok { MessageId := some "m-1" })
        { topicArn := "arn:aws:sns:us-east-1:123456789012:t.fifo", message := "m",
          messageGroupId := some "" } =
      failureOf (.error fifoGroupIdMsg) :=
  ((emptyGroupId_treated_as_absent).2
    { topicArn := "arn:aws:sns:us-east-1:123456789012:t.fifo", message := "m",
      messageGroupId := some "" }
    (fun _ => .ok { MessageId := some "m-1" })
    (by rfl) rfl (by rfl) (by rfl) (by rfl)).1

/-- Claim C4: for every message body, `validateMessage` succeeds if and only
if the UTF-8 byte length of the body is at most 262144 bytes, and on failure
the error reports the actual and the maximum byte counts. -/
theorem validateMessage_size_spec (m : String) :
    (validateMessage m = .ok () ↔ m.utf8ByteSize ≤ 262144) ∧
    (validateMessage m = .ok () ∨
      validateMessage m = .error (.error (messageSizeMsg m.utf8ByteSize))) := by
  by_cases h : m.utf8ByteSize > 256 * 1024
  · have he : validateMessage m = .error (.error (messageSizeMsg m.utf8ByteSize)) := by
      simp [validateMessage, h]
    rw [he]
    refine ⟨⟨fun hc => absurd hc (by simp), fun hle => absurd hle (by omega)⟩, Or.inr rfl⟩
  · have ho : validateMessage m = .ok () := by simp [validateMessage, h]
    rw [ho]
    exact ⟨⟨fun _ => by omega, fun _ => rfl⟩, Or.inl rfl⟩

/-- Claim C9: `validateMessageStructure` accepts an absent value and the
literal `"json"`, and rejects any other present value with an error naming
it. -/
theorem validateMessageStructure_spec :
    validateMessageStructure none = .ok () ∧
    validateMessageStructure (some "json") = .ok () ∧
    ∀ v : String, v ≠ "json" →
      validateMessageStructure (some v) = .error (.error (invalidStructureMsg v)) := by
  refine ⟨rfl, rfl, fun v hv => ?_⟩
  simp [validateMessageStructure, hv]

/-- Witness for claim C9 at the concrete rejected value `"xml"`. -/
theorem validateMessageStructure_spec_witness :
    validateMessageStructure (some "xml") = .error (.error (invalidStructureMsg "xml")) :=
  validateMessageStructure_spec.2.2 "xml" (by decide)

theorem consumeLit_eq_append {p l r : List Char} (h : consumeLit p l = some r) :
    l = p ++ r := by
  induction p generalizing l with
  | nil =>
    simp only [consumeLit, Option.some.injEq] at h
    simp [h]
  | cons a ps ih =>
    cases l with
    | nil => simp [consumeLit] at h
    | cons c cs =>
      simp only [consumeLit] at h
      split at h
      · next hac => simp [hac, ih h]
      · exact absurd h (by simp)

theorem consumeLit_append (p r : List Char) : consumeLit p (p ++ r) = some r := by
  induction p with
  | nil => rfl
  | cons a ps ih => simp [consumeLit, ih]

theorem arnAfterAcct_iff (r2 : List Char) :
    arnAfterAcct r2 = true ↔
      ∃ a n : List Char, r2 = a ++ ':' :: n ∧ a ≠ [] ∧ a.all isAsciiDigit = true ∧
        n ≠ [] ∧ n.all (fun c => !isLineTerm c) = true := by
  constructor
  · intro h
    unfold arnAfterAcct at h
    split at h
    case h_1 name heq =>
      simp only [Bool.and_eq_true] at h
      refine ⟨r2.takeWhile isAsciiDigit, name, ?_, ?_, List.all_takeWhile, ?_, h.2⟩
      · conv_lhs => rw [← List.takeWhile_append_dropWhile isAsciiDigit r2]
        rw [heq]
      · intro hnil
        rw [hnil] at h
        simp at h
      · intro hnil
        rw [hnil] at h
        simp at h
    case h_2 => exact absurd h (by simp)
  · rintro ⟨a, n, rfl, ha, hall, hn, hterm⟩
    have hcolon : isAsciiDigit ':' = false := by decide
    have hmem : ∀ x ∈ a, isAsciiDigit x = true := fun x hx =>
      List.all_eq_true.mp hall x hx
    have hdrop : (a ++ ':' :: n).dropWhile isAsciiDigit = ':' :: n := by
      rw [List.dropWhile_append_of_pos hmem, List.dropWhile_cons, hcolon]
      simp
    have htake : (a ++ ':' :: n).takeWhile isAsciiDigit = a := by
      rw [List.takeWhile_append_of_pos hmem, List.takeWhile_cons, hcolon]
      simp
    obtain ⟨b, t, rfl⟩ := List.exists_cons_of_ne_nil ha
    obtain ⟨b2, t2, rfl⟩ := List.exists_cons_of_ne_nil hn
    unfold arnAfterAcct
    rw [hdrop, htake]
    simpa using hterm

theorem arnAfterRegion_iff (r0 : List Char) :
    arnAfterRegion r0 = true ↔
      ∃ reg r2 : List Char, r0 = reg ++ ':' :: r2 ∧ reg ≠ [] ∧
        reg.all isRegionChar = true ∧ arnAfterAcct r2 = true := by
  constructor
  · intro h
    unfold arnAfterRegion at h
    split at h
    case h_1 r2 heq =>
      simp only [Bool.and_eq_true] at h
      refine ⟨r0.takeWhile isRegionChar, r2, ?_, ?_, List.all_takeWhile, h.2⟩
      · conv_lhs => rw [← List.takeWhile_append_dropWhile isRegionChar r0]
        rw [heq]
      · intro hnil
        rw [hnil] at h
        simp at h
    case h_2 => exact absurd h (by simp)
  · rintro ⟨reg, r2, rfl, hreg, hall, hacct⟩
    have hcolon : isRegionChar ':' = false := by decide
    have hmem : ∀ x ∈ reg, isRegionChar x = true := fun x hx =>
      List.all_eq_true.mp hall x hx
    have hdrop : (reg ++ ':' :: r2).dropWhile isRegionChar = ':' :: r2 := by
      rw [List.dropWhile_append_of_pos hmem, List.dropWhile_cons, hcolon]
      simp
    have htake : (reg ++ ':' :: r2).takeWhile isRegionChar = reg := by
      rw [List.takeWhile_append_of_pos hmem, List.takeWhile_cons, hcolon]
      simp
    obtain ⟨b, t, rfl⟩ := List.exists_cons_of_ne_nil hreg
    unfold arnAfterRegion
    rw [hdrop, htake]
    simpa using hacct

theorem arnTest_iff (s : String) :
    arnTest s = true ↔
      ∃ reg a n : List Char,
        s.toList = "arn:aws:sns:".toList ++ reg ++ ':' :: (a ++ ':' :: n) ∧
        reg ≠ [] ∧ reg.all isRegionChar = true ∧
        a ≠ [] ∧ a.all isAsciiDigit = true ∧
        n ≠ [] ∧ n.all (fun c => !isLineTerm c) = true := by
  constructor
  · intro h
    unfold arnTest at h
    split at h
    case h_1 => exact absurd h (by simp)
    case h_2 r0 heq =>
      obtain ⟨reg, r2, hr0, hreg, hregall, hacct⟩ := (arnAfterRegion_iff r0).mp h
      obtain ⟨a, n, hr2, ha, hall, hn, hterm⟩ := (arnAfterAcct_iff r2).mp hacct
      refine ⟨reg, a, n, ?_, hreg, hregall, ha, hall, hn, hterm⟩
      rw [consumeLit_eq_append heq, hr0, hr2]
      simp
  · rintro ⟨reg, a, n, heq, hreg, hregall, ha, hall, hn, hterm⟩
    unfold arnTest
    rw [show s.toList = "arn:aws:sns:".toList ++ (reg ++ ':' :: (a ++ ':' :: n)) by
          rw [heq]; simp,
        consumeLit_append]
    exact (arnAfterRegion_iff _).mpr ⟨reg, a ++ ':' :: n, rfl, hreg, hregall,
      (arnAfterAcct_iff _).mpr ⟨a, n, rfl, ha, hall, hn, hterm⟩⟩

theorem string_ne_empty_iff_toList {x : String} : x ≠ "" ↔ x.toList ≠ [] := by
  cases x with
  | mk d =>
    constructor
    · intro h hn
      exact h (String.ext hn)
    · intro h hn
      exact h (congrArg String.data hn)

theorem arnCodeMatch_iff_lists (s : String) :
    arnCodeMatch s ↔
      ∃ reg a n : List Char,
        s.toList = "arn:aws:sns:".toList ++ reg ++ ':' :: (a ++ ':' :: n) ∧
        reg ≠ [] ∧ reg.all isRegionChar = true ∧
        a ≠ [] ∧ a.all isAsciiDigit = true ∧
        n ≠ [] ∧ n.all (fun c => !isLineTerm c) = true := by
  constructor
  · rintro ⟨region, acct, name, rfl, h1, h2, h3, h4, h5, h6⟩
    refine ⟨region.toList, acct.toList, name.toList, ?_,
      string_ne_empty_iff_toList.mp h1, h2,
      string_ne_empty_iff_toList.mp h3, h4,
      string_ne_empty_iff_toList.mp h5, h6⟩
    show (("arn:aws:sns:" ++ region ++ ":" ++ acct ++ ":" ++ name)).data = _
    simp [String.data_append]
  · rintro ⟨reg, a, n, heq, hreg, hregall, ha, hall, hn, hterm⟩
    refine ⟨String.mk reg, String.mk a, String.mk n, ?_,
      string_ne_empty_iff_toList.mpr hreg, hregall,
      string_ne_empty_iff_toList.mpr ha, hall,
      string_ne_empty_iff_toList.mpr hn, hterm⟩
    apply String.ext
    have : s.data = "arn:aws:sns:".data ++ reg ++ ':' :: (a ++ ':' :: n) := heq
    rw [this]
    simp [String.data_append]

/-- Claim C3 (amended): `validateTopicArn` succeeds exactly on strings of the
shape `arn:aws:sns:<region>:<account-id>:<name>` with region one or more
lowercase letters, digits or hyphens, account id one or more digits, and a
non-empty name containing no line terminator; otherwise it fails with the
error naming the offending ARN and the expected format. -/
theorem validateTopicArn_ok_iff (s : String) :
    (validateTopicArn s = .ok () ↔ arnCodeMatch s) ∧
    (validateTopicArn s = .ok () ∨
      validateTopicArn s = .error (.error (invalidArnMsg s))) := by
  have hv : validateTopicArn s = .ok () ↔ arnTest s = true := by
    cases harn : arnTest s <;> simp [validateTopicArn, harn]
  constructor
  · rw [hv, arnTest_iff, ← arnCodeMatch_iff_lists]
  · cases harn : arnTest s <;> simp [validateTopicArn, harn]

/-- Counterexample to claim C3 as stated: the specification accepts ANY
non-empty name, but the ARN `arn:aws:sns:r:1:a<LF>b` — whose name holds a
line feed — matches the specification's shape while the validator rejects it
(the regex `.` never matches a line terminator). -/
theorem validateTopicArn_claim_counterexample :
    arnSpecMatch "arn:aws:sns:r:1:a\nb" ∧
    validateTopicArn "arn:aws:sns:r:1:a\nb" =
      .error (.error (invalidArnMsg "arn:aws:sns:r:1:a\nb")) := by
  constructor
  · exact ⟨"r", "1", "a\nb", by decide, by decide, by decide, by decide, by decide,
      by decide⟩
  · rfl

theorem processAttr_ok_iff (key : String) (v : Json)
    (htp : textualPayloads v = true) :
    (∃ attr, processAttr key v = .ok attr) ↔ attrSchemaOk v = true := by
  cases v with
  | null => simp [processAttr, jsGetField, attrSchemaOk, objField]
  | bool b => simp [processAttr, jsGetField, jsTruthyO, jsTruthy, attrSchemaOk, objField]
  | num s0 => simp [processAttr, jsGetField, jsTruthyO, jsTruthy, attrSchemaOk, objField]
  | str s0 => simp [processAttr, jsGetField, jsTruthyO, jsTruthy, attrSchemaOk, objField]
  | arr xs => simp [processAttr, jsGetField, jsTruthyO, jsTruthy, attrSchemaOk, objField]
  | obj fs =>
    cases hdt : fs.lookup "DataType" with
    | none => simp [processAttr, jsGetField, hdt, jsTruthyO, attrSchemaOk, objField]
    | some dt =>
      cases dt with
      | null =>
        simp [processAttr, jsGetField, hdt, jsTruthyO, jsTruthy, attrSchemaOk, objField]
      | bool b =>
        cases b <;>
          simp [processAttr, jsGetField, hdt, jsTruthyO, jsTruthy, attrSchemaOk, objField]
      | num s0 =>
        cases hz : jsNumIsZero s0 <;>
          simp [processAttr, jsGetField, hdt, jsTruthyO, jsTruthy, hz, attrSchemaOk,
            objField]
      | arr xs =>
        simp [processAttr, jsGetField, hdt, jsTruthyO, jsTruthy, attrSchemaOk, objField]
      | obj gs =>
        simp [processAttr, jsGetField, hdt, jsTruthyO, jsTruthy, attrSchemaOk, objField]
      | str d =>
        cases he : d.isEmpty with
        | true =>
          have hd : d = "" := (String.isEmpty_iff d).mp he
          subst hd
          simp [processAttr, jsGetField, hdt, jsTruthyO, jsTruthy, he, attrSchemaOk,
            objField, validDataTypes]
        | false =>
          cases hc : validDataTypes.contains d with
          | false =>
            have hm : ¬ d ∈ validDataTypes := by simpa using hc
            simp [processAttr, jsGetField, hdt, jsTruthyO, jsTruthy, he, hm,
              attrSchemaOk, objField]
          | true =>
            have hd4 : d = "String" ∨ d = "Number" ∨ d = "Binary" ∨
                d = "String.Array" := by
              simpa [validDataTypes] using hc
            have hb_str : ∀ b, fs.lookup "BinaryValue" = some b → ∃ t, b = Json.str t := by
              intro b hbv
              simp only [textualPayloads, objField, hbv] at htp
              cases b <;> simp at htp
              exact ⟨_, rfl⟩
            rcases hd4 with rfl | rfl | rfl | rfl
            · cases hsv : fs.lookup "StringValue" with
              | none =>
                simp [processAttr, jsGetField, hdt, hsv, jsTruthyO, jsTruthy, he, hc,
                  attrSchemaOk, objField, validDataTypes]
              | some sv =>
                cases hbv : fs.lookup "BinaryValue" with
                | none =>
                  simp [processAttr, jsGetField, hdt, hsv, hbv, jsTruthyO, jsTruthy,
                    he, hc, attrSchemaOk, objField, validDataTypes]
                | some b =>
                  obtain ⟨t, rfl⟩ := hb_str b hbv
                  simp [processAttr, jsGetField, hdt, hsv, hbv, jsTruthyO, jsTruthy,
                    he, hc, attrSchemaOk, objField, bufferFromBase64, validDataTypes]
            · cases hsv : fs.lookup "StringValue" with
              | none =>
                simp [processAttr, jsGetField, hdt, hsv, jsTruthyO, jsTruthy, he, hc,
                  attrSchemaOk, objField, validDataTypes]
              | some sv =>
                cases hbv : fs.lookup "BinaryValue" with
                | none =>
                  simp [processAttr, jsGetField, hdt, hsv, hbv, jsTruthyO, jsTruthy,
                    he, hc, attrSchemaOk, objField, validDataTypes]
                | some b =>
                  obtain ⟨t, rfl⟩ := hb_str b hbv
                  simp [processAttr, jsGetField, hdt, hsv, hbv, jsTruthyO, jsTruthy,
                    he, hc, attrSchemaOk, objField, bufferFromBase64, validDataTypes]
            · cases hbv : fs.lookup "BinaryValue" with
              | none =>
                simp [processAttr, jsGetField, hdt, hbv, jsTruthyO, jsTruthy, he, hc,
                  attrSchemaOk, objField, validDataTypes]
              | some b =>
                obtain ⟨t, rfl⟩ := hb_str b hbv
                simp [processAttr, jsGetField, hdt, hbv, jsTruthyO, jsTruthy, he, hc,
                  attrSchemaOk, objField, bufferFromBase64, validDataTypes]
            · cases hsv : fs.lookup "StringValue" with
              | none =>
                simp [processAttr, jsGetField, hdt, hsv, jsTruthyO, jsTruthy, he, hc,
                  attrSchemaOk, objField, validDataTypes]
              | some sv =>
                cases hbv : fs.lookup "BinaryValue" with
                | none =>
                  simp [processAttr, jsGetField, hdt, hsv, hbv, jsTruthyO, jsTruthy,
                    he, hc, attrSchemaOk, objField, validDataTypes]
                | some b =>
                  obtain ⟨t, rfl⟩ := hb_str b hbv
                  simp [processAttr, jsGetField, hdt, hsv, hbv, jsTruthyO, jsTruthy,
                    he, hc, attrSchemaOk, objField, bufferFromBase64, validDataTypes]

theorem processEntries_ok_iff (es : List (String × Json)) :
    (∀ p ∈ es, textualPayloads p.2 = true) →
    ((∃ m, processEntries es = .ok m) ↔ ∀ p ∈ es, attrSchemaOk p.2 = true) := by
  induction es with
  | nil => intro _; simp [processEntries]
  | cons hd tl ih =>
    intro htp
    obtain ⟨key, v⟩ := hd
    have htv : textualPayloads v = true := htp (key, v) (by simp)
    have htl : ∀ p ∈ tl, textualPayloads p.2 = true := fun p hp => htp p (by simp [hp])
    constructor
    · rintro ⟨m, hm⟩
      simp only [processEntries] at hm
      cases hpa : processAttr key v with
      | error e => rw [hpa] at hm; simp at hm
      | ok attr =>
        rw [hpa] at hm
        cases hpe : processEntries tl with
        | error e => rw [hpe] at hm; simp at hm
        | ok tlm =>
          intro p hp
          rcases List.mem_cons.mp hp with rfl | hptl
          · exact (processAttr_ok_iff key v htv).mp ⟨attr, hpa⟩
          · exact ((ih htl).mp ⟨tlm, hpe⟩) p hptl
    · intro hall
      obtain ⟨attr, hpa⟩ := (processAttr_ok_iff key v htv).mpr (hall (key, v) (by simp))
      obtain ⟨tlm, hpe⟩ := (ih htl).mpr (fun p hp => hall p (by simp [hp]))
      exact ⟨(key, attr) :: tlm, by simp [processEntries, hpa, hpe]⟩

theorem processAttr_error_forms {key : String} {v : Json} {e : Thrown}
    (htp : textualPayloads v = true) (h : processAttr key v = .error e) :
    e = .error (nullPropertyReadMsg "DataType") ∨
    e = .error (missingDataTypeMsg key) ∨
    (∃ d, e = .error (invalidDataTypeMsg d key)) ∨
    (∃ d, e = .error (missingStringValueMsg key d)) ∨
    e = .error (missingBinaryValueMsg key) := by
  cases v with
  | null =>
    simp only [processAttr, jsGetField, Except.error.injEq] at h
    exact Or.inl h.symm
  | bool b =>
    simp only [processAttr, jsGetField, jsTruthyO, Bool.not_false, if_true,
      Except.error.injEq] at h
    exact Or.inr (Or.inl h.symm)
  | num s0 =>
    simp only [processAttr, jsGetField, jsTruthyO, Bool.not_false, if_true,
      Except.error.injEq] at h
    exact Or.inr (Or.inl h.symm)
  | str s0 =>
    simp only [processAttr, jsGetField, jsTruthyO, Bool.not_false, if_true,
      Except.error.injEq] at h
    exact Or.inr (Or.inl h.symm)
  | arr xs =>
    simp only [processAttr, jsGetField, jsTruthyO, Bool.not_false, if_true,
      Except.error.injEq] at h
    exact Or.inr (Or.inl h.symm)
  | obj fs =>
    cases hdt : fs.lookup "DataType" with
    | none =>
      simp only [processAttr, jsGetField, hdt, jsTruthyO, Bool.not_false, if_true,
        Except.error.injEq] at h
      exact Or.inr (Or.inl h.symm)
    | some dt =>
      cases dt with
      | null =>
        simp [processAttr, jsGetField, hdt, jsTruthyO, jsTruthy] at h
        exact Or.inr (Or.inl h.symm)
      | bool b =>
        cases b
        · simp [processAttr, jsGetField, hdt, jsTruthyO, jsTruthy] at h
          exact Or.inr (Or.inl h.symm)
        · simp [processAttr, jsGetField, hdt, jsTruthyO, jsTruthy] at h
          exact Or.inr (Or.inr (Or.inl ⟨jsToString (Json.bool true), h.symm⟩))
      | num s0 =>
        cases hz : jsNumIsZero s0
        · simp [processAttr, jsGetField, hdt, jsTruthyO, jsTruthy, hz] at h
          exact Or.inr (Or.inr (Or.inl ⟨jsToString (Json.num s0), h.symm⟩))
        · simp [processAttr, jsGetField, hdt, jsTruthyO, jsTruthy, hz] at h
          exact Or.inr (Or.inl h.symm)
      | arr xs =>
        simp [processAttr, jsGetField, hdt, jsTruthyO, jsTruthy] at h
        exact Or.inr (Or.inr (Or.inl ⟨jsToString (Json.arr xs), h.symm⟩))
      | obj gs =>
        simp [processAttr, jsGetField, hdt, jsTruthyO, jsTruthy] at h
        exact Or.inr (Or.inr (Or.inl ⟨jsToString (Json.obj gs), h.symm⟩))
      | str d =>
        cases he : d.isEmpty with
        | true =>
          simp [processAttr, jsGetField, hdt, jsTruthyO, jsTruthy, he] at h
          exact Or.inr (Or.inl h.symm)
        | false =>
          cases hc : validDataTypes.contains d with
          | false =>
            have hm : ¬ d ∈ validDataTypes := by simpa using hc
            simp [processAttr, jsGetField, hdt, jsTruthyO, jsTruthy, he, hm] at h
            exact Or.inr (Or.inr (Or.inl ⟨d, h.symm⟩))
          | true =>
            have hd4 : d = "String" ∨ d = "Number" ∨ d = "Binary" ∨
                d = "String.Array" := by simpa [validDataTypes] using hc
            have hb_str : ∀ b, fs.lookup "BinaryValue" = some b →
                ∃ t, b = Json.str t := by
              intro b hbv
              simp only [textualPayloads, objField, hbv] at htp
              cases b <;> simp at htp
              exact ⟨_, rfl⟩
            rcases hd4 with rfl | rfl | rfl | rfl
            · cases hsv : fs.lookup "StringValue" with
              | none =>
                simp [processAttr, jsGetField, hdt, hsv, jsTruthyO, jsTruthy, he,
                  hc, validDataTypes] at h
                exact Or.inr (Or.inr (Or.inr (Or.inl ⟨"String", h.symm⟩)))
              | some sv =>
                cases hbv : fs.lookup "BinaryValue" with
                | none =>
                  simp [processAttr, jsGetField, hdt, hsv, hbv, jsTruthyO,
                    jsTruthy, he, hc, validDataTypes] at h
                | some b =>
                  obtain ⟨t, rfl⟩ := hb_str b hbv
                  simp [processAttr, jsGetField, hdt, hsv, hbv, jsTruthyO,
                    jsTruthy, he, hc, validDataTypes, bufferFromBase64] at h
            · cases hsv : fs.lookup "StringValue" with
              | none =>
                simp [processAttr, jsGetField, hdt, hsv, jsTruthyO, jsTruthy, he,
                  hc, validDataTypes] at h
                exact Or.inr (Or.inr (Or.inr (Or.inl ⟨"Number", h.symm⟩)))
              | some sv =>
                cases hbv : fs.lookup "BinaryValue" with
                | none =>
                  simp [processAttr, jsGetField, hdt, hsv, hbv, jsTruthyO,
                    jsTruthy, he, hc, validDataTypes] at h
                | some b =>
                  obtain ⟨t, rfl⟩ := hb_str b hbv
                  simp [processAttr, jsGetField, hdt, hsv, hbv, jsTruthyO,
                    jsTruthy, he, hc, validDataTypes, bufferFromBase64] at h
            · cases hbv : fs.lookup "BinaryValue" with
              | none =>
                simp [processAttr, jsGetField, hdt, hbv, jsTruthyO, jsTruthy, he,
                  hc, validDataTypes] at h
                exact Or.inr (Or.inr (Or.inr (Or.inr h.symm)))
              | some b =>
                obtain ⟨t, rfl⟩ := hb_str b hbv
                simp [processAttr, jsGetField, hdt, hbv, jsTruthyO, jsTruthy, he,
                  hc, validDataTypes, bufferFromBase64] at h
            · cases hsv : fs.lookup "StringValue" with
              | none =>
                simp [processAttr, jsGetField, hdt, hsv, jsTruthyO, jsTruthy, he,
                  hc, validDataTypes] at h
                exact Or.inr (Or.inr (Or.inr (Or.inl ⟨"String.Array", h.symm⟩)))
              | some sv =>
                cases hbv : fs.lookup "BinaryValue" with
                | none =>
                  simp [processAttr, jsGetField, hdt, hsv, hbv, jsTruthyO,
                    jsTruthy, he, hc, validDataTypes] at h
                | some b =>
                  obtain ⟨t, rfl⟩ := hb_str b hbv
                  simp [processAttr, jsGetField, hdt, hsv, hbv, jsTruthyO,
                    jsTruthy, he, hc, validDataTypes, bufferFromBase64] at h

theorem processEntries_error_forms {es : List (String × Json)} :
    ∀ {e : Thrown}, processEntries es = .error e →
      ∃ p ∈ es, processAttr p.1 p.2 = .error e := by
  induction es with
  | nil => intro e h; simp [processEntries] at h
  | cons hd tl ih =>
    intro e h
    obtain ⟨key, v⟩ := hd
    simp only [processEntries] at h
    cases hpa : processAttr key v with
    | error e0 =>
      rw [hpa] at h
      simp only [Except.error.injEq] at h
      subst h
      exact ⟨(key, v), by simp, hpa⟩
    | ok attr =>
      rw [hpa] at h
      cases hpe : processEntries tl with
      | error e0 =>
        rw [hpe] at h
        simp only [Except.error.injEq] at h
        subst h
        obtain ⟨p, hp, hpp⟩ := ih hpe
        exact ⟨p, by simp [hp], hpp⟩
      | ok tlm =>
        rw [hpe] at h
        simp at h

/-- Claim C6 (amended): restricted to attribute strings that parse as a JSON
object whose payload fields are textual, `parseMessageAttributes` succeeds if
and only if the object has at most 10 keys and every value carries a
`DataType` from the closed enum together with the payload field that type
requires; when the key count exceeds 10 the wrapped failure message names the
count, and any other failure wraps the first failing entry's error, which
names the offending attribute key — and, for an invalid data type, the
offending value — or is the platform TypeError for a null value.  (The
original claim's "exactly on inputs that parse as a JSON object" and its
unconditional "BinaryValue present for Binary" success condition both fail —
see the two parts of the counterexample.) -/
theorem parseMessageAttributes_success_iff (s : String)
    (fields : List (String × Json))
    (hp : jsonParse s = .ok (Json.obj fields))
    (htp : ∀ p ∈ fields, textualPayloads p.2 = true) :
    ((∃ m, parseMessageAttributes s = .ok m) ↔
      fields.length ≤ 10 ∧ ∀ p ∈ fields, attrSchemaOk p.2 = true) ∧
    (fields.length > 10 →
      parseMessageAttributes s = .error (.error
        ("Failed to parse message attributes: " ++
          tooManyAttributesMsg fields.length))) ∧
    (∀ e, parseMessageAttributes s = .error e → fields.length ≤ 10 →
      ∃ p ∈ fields, ∃ e0, processAttr p.1 p.2 = .error e0 ∧
        e = .error ("Failed to parse message attributes: " ++ extractMessage e0) ∧
        (e0 = .error (nullPropertyReadMsg "DataType") ∨
         e0 = .error (missingDataTypeMsg p.1) ∨
         (∃ d, e0 = .error (invalidDataTypeMsg d p.1)) ∨
         (∃ d, e0 = .error (missingStringValueMsg p.1 d)) ∨
         e0 = .error (missingBinaryValueMsg p.1))) := by
  have hinner : parseAttributesInner s =
      (if fields.length > 10 then
        .error (.error (tooManyAttributesMsg fields.length))
      else processEntries fields) := by
    simp [parseAttributesInner, hp, jsEntries]
  refine ⟨?_, ?_, ?_⟩
  · by_cases hlen : fields.length > 10
    · rw [if_pos hlen] at hinner
      have hfail : parseMessageAttributes s = .error (.error
          ("Failed to parse message attributes: " ++
            tooManyAttributesMsg fields.length)) := by
        simp [parseMessageAttributes, hinner, extractMessage]
      rw [hfail]
      constructor
      · rintro ⟨m, hm⟩
        exact absurd hm (by simp)
      · rintro ⟨hle, _⟩
        exact absurd hle (by omega)
    · rw [if_neg hlen] at hinner
      constructor
      · rintro ⟨m, hm⟩
        simp only [parseMessageAttributes, hinner] at hm
        cases hpe : processEntries fields with
        | error e => rw [hpe] at hm; simp at hm
        | ok mm =>
          exact ⟨by omega, (processEntries_ok_iff fields htp).mp ⟨mm, hpe⟩⟩
      · rintro ⟨hle, hall⟩
        obtain ⟨m, hm⟩ := (processEntries_ok_iff fields htp).mpr hall
        exact ⟨m, by simp [parseMessageAttributes, hinner, hm]⟩
  · intro hlen
    rw [if_pos hlen] at hinner
    simp [parseMessageAttributes, hinner, extractMessage]
  · intro e he hlen
    rw [if_neg (by omega)] at hinner
    cases hpe : processEntries fields with
    | ok mm =>
      have : parseMessageAttributes s = .ok mm := by
        simp [parseMessageAttributes, hinner, hpe]
      rw [this] at he
      exact absurd he (by simp)
    | error e0 =>
      have hwrap : parseMessageAttributes s = .error (.error
          ("Failed to parse message attributes: " ++ extractMessage e0)) := by
        simp [parseMessageAttributes, hinner, hpe]
      rw [hwrap] at he
      obtain ⟨p, hpmem, hpa⟩ := processEntries_error_forms hpe
      exact ⟨p, hpmem, e0, hpa, (Except.error.inj he).symm,
        processAttr_error_forms (htp p hpmem) hpa⟩

/-- Counterexample to claim C6 as stated, on both sides of its "exactly".
First, `"5"` parses as the JSON number 5, not as an object, yet
`parseMessageAttributes` succeeds on it (with an empty mapping), because a
primitive has no enumerable entries to validate.  Second, an object
satisfying the claim's success condition — one key, `DataType` `"Binary"`, a
`BinaryValue` present — fails when that `BinaryValue` is the number 5 rather
than text: `Buffer.from(5, 'base64')` throws a TypeError, which the wrapper
converts into a failure.  (This second input also forces the textual-payload
restriction of the amended claim.) -/
theorem parseMessageAttributes_claim_counterexample :
    jsonParse "5" = .ok (Json.num "5") ∧
    parseMessageAttributes "5" = .ok [] ∧
    jsonParse "\x7b\"a\":\x7b\"DataType\":\"Binary\",\"BinaryValue\":5\x7d\x7d" =
      .ok (Json.obj [("a", Json.obj [("DataType", Json.str "Binary"),
                                     ("BinaryValue", Json.num "5")])]) ∧
    parseMessageAttributes
        "\x7b\"a\":\x7b\"DataType\":\"Binary\",\"BinaryValue\":5\x7d\x7d" =
      .error (.error
        ("Failed to parse message attributes: " ++ bufferTypeErrorMsg)) :=
  ⟨rfl, rfl, rfl, rfl⟩

set_option maxRecDepth 8192 in
/-- Witness for claim C6: a well-formed single-attribute object is accepted;
an eleven-key object is rejected with the wrapped error naming the count; and
a `Number` attribute lacking its `StringValue` fails with a wrapped message
naming the attribute and its data type. -/
theorem parseMessageAttributes_success_iff_witness :
    (∃ m, parseMessageAttributes
      "\x7b\"a\":\x7b\"DataType\":\"String\",\"StringValue\":\"x\"\x7d\x7d" = .ok m) ∧
    parseMessageAttributes
      "\x7b\"k0\":\x7b\"DataType\":\"String\",\"StringValue\":\"x\"\x7d,\"k1\":\x7b\"DataType\":\"String\",\"StringValue\":\"x\"\x7d,\"k2\":\x7b\"DataType\":\"String\",\"StringValue\":\"x\"\x7d,\"k3\":\x7b\"DataType\":\"String\",\"StringValue\":\"x\"\x7d,\"k4\":\x7b\"DataType\":\"String\",\"StringValue\":\"x\"\x7d,\"k5\":\x7b\"DataType\":\"String\",\"StringValue\":\"x\"\x7d,\"k6\":\x7b\"DataType\":\"String\",\"StringValue\":\"x\"\x7d,\"k7\":\x7b\"DataType\":\"String\",\"StringValue\":\"x\"\x7d,\"k8\":\x7b\"DataType\":\"String\",\"StringValue\":\"x\"\x7d,\"k9\":\x7b\"DataType\":\"String\",\"StringValue\":\"x\"\x7d,\"k10\":\x7b\"DataType\":\"String\",\"StringValue\":\"x\"\x7d\x7d" =
      .error (.error
        ("Failed to parse message attributes: " ++ tooManyAttributesMsg 11)) ∧
    (∃ p ∈ ([("a", Json.obj [("DataType", Json.str "Number")])] : List (String × Json)),
      ∃ e0, processAttr p.1 p.2 = .error e0 ∧
        Thrown.error ("Failed to parse message attributes: " ++
            missingStringValueMsg "a" "Number") =
          Thrown.error ("Failed to parse message attributes: " ++ extractMessage e0) ∧
        (e0 = Thrown.error (nullPropertyReadMsg "DataType") ∨
         e0 = Thrown.error (missingDataTypeMsg p.1) ∨
         (∃ d, e0 = Thrown.error (invalidDataTypeMsg d p.1)) ∨
         (∃ d, e0 = Thrown.error (missingStringValueMsg p.1 d)) ∨
         e0 = Thrown.error (missingBinaryValueMsg p.1))) := by
  refine ⟨?_, ?_, ?_⟩
  · exact (parseMessageAttributes_success_iff
      "\x7b\"a\":\x7b\"DataType\":\"String\",\"StringValue\":\"x\"\x7d\x7d"
      [("a", Json.obj [("DataType", Json.str "String"), ("StringValue", Json.str "x")])]
      (by rfl) (by decide)).1.mpr ⟨by decide, by decide⟩
  · exact (parseMessageAttributes_success_iff
      "\x7b\"k0\":\x7b\"DataType\":\"String\",\"StringValue\":\"x\"\x7d,\"k1\":\x7b\"DataType\":\"String\",\"StringValue\":\"x\"\x7d,\"k2\":\x7b\"DataType\":\"String\",\"StringValue\":\"x\"\x7d,\"k3\":\x7b\"DataType\":\"String\",\"StringValue\":\"x\"\x7d,\"k4\":\x7b\"DataType\":\"String\",\"StringValue\":\"x\"\x7d,\"k5\":\x7b\"DataType\":\"String\",\"StringValue\":\"x\"\x7d,\"k6\":\x7b\"DataType\":\"String\",\"StringValue\":\"x\"\x7d,\"k7\":\x7b\"DataType\":\"String\",\"StringValue\":\"x\"\x7d,\"k8\":\x7b\"DataType\":\"String\",\"StringValue\":\"x\"\x7d,\"k9\":\x7b\"DataType\":\"String\",\"StringValue\":\"x\"\x7d,\"k10\":\x7b\"DataType\":\"String\",\"StringValue\":\"x\"\x7d\x7d"
      [("k0", Json.obj [("DataType", Json.str "String"), ("StringValue", Json.str "x")]),
       ("k1", Json.obj [("DataType", Json.str "String"), ("StringValue", Json.str "x")]),
       ("k2", Json.obj [("DataType", Json.str "String"), ("StringValue", Json.str "x")]),
       ("k3", Json.obj [("DataType", Json.str "String"), ("StringValue", Json.str "x")]),
       ("k4", Json.obj [("DataType", Json.str "String"), ("StringValue", Json.str "x")]),
       ("k5", Json.obj [("DataType", Json.str "String"), ("StringValue", Json.str "x")]),
       ("k6", Json.obj [("DataType", Json.str "String"), ("StringValue", Json.str "x")]),
       ("k7", Json.obj [("DataType", Json.str "String"), ("StringValue", Json.str "x")]),
       ("k8", Json.obj [("DataType", Json.str "String"), ("StringValue", Json.str "x")]),
       ("k9", Json.obj [("DataType", Json.str "String"), ("StringValue", Json.str "x")]),
       ("k10", Json.obj [("DataType", Json.str "String"), ("StringValue", Json.str "x")])]
      (by rfl) (by decide)).2.1 (by decide)
  · exact (parseMessageAttributes_success_iff
      "\x7b\"a\":\x7b\"DataType\":\"Number\"\x7d\x7d"
      [("a", Json.obj [("DataType", Json.str "Number")])]
      (by rfl) (by decide)).2.2
      (Thrown.error ("Failed to parse message attributes: " ++
        missingStringValueMsg "a" "Number")) (by rfl) (by decide)

theorem processAttr_ok_inv {key : String} {v : Json} {attr : MessageAttributeValue}
    (h : processAttr key v = .ok attr) :
    attr.DataType ∈ validDataTypes ∧
    (attr.DataType = "Binary" → attr.BinaryValue.isSome = true) ∧
    (attr.DataType ≠ "Binary" → attr.StringValue.isSome = true) := by
  unfold processAttr at h
  split at h
  · exact absurd h (by simp)
  · split at h
    · exact absurd h (by simp)
    · split at h
      · rename_i d heq htr
        split at h
        · exact absurd h (by simp)
        · rename_i hcont
          have hmem : d ∈ validDataTypes := by
            have hc : validDataTypes.contains d = true := by
              cases hcd : validDataTypes.contains d
              · rw [hcd] at hcont
                simp at hcont
              · rfl
            simpa using hc
          split at h
          · exact absurd h (by simp)
          · exact absurd h (by simp)
          · rename_i svF bvF hsv hbv
            split at h
            · exact absurd h (by simp)
            · rename_i hcond1
              split at h
              · exact absurd h (by simp)
              · rename_i hcond2
                have hsv_of : d ≠ "Binary" → attr.StringValue = svF.map jsToString →
                    attr.StringValue.isSome = true := by
                  intro hdb hattr
                  have hd4 : d = "String" ∨ d = "Number" ∨ d = "Binary" ∨
                      d = "String.Array" := by simpa [validDataTypes] using hmem
                  have hor : (d == "String" || d == "Number" || d == "String.Array")
                      = true := by
                    rcases hd4 with rfl | rfl | rfl | rfl
                    · simp
                    · simp
                    · exact absurd rfl hdb
                    · simp
                  have hnone : svF.isNone = false := by
                    cases hz : svF.isNone
                    · rfl
                    · exact absurd (by simp [hor, hz]) hcond1
                  rw [hattr]
                  cases hz : svF
                  · rw [hz] at hnone
                    simp at hnone
                  · simp
                split at h
                · simp only [Except.ok.injEq] at h
                  subst h
                  have hdb : d ≠ "Binary" := by
                    intro hdd
                    exact hcond2 (by simp [hdd])
                  exact ⟨hmem, fun hdd => absurd hdd hdb, fun _ => hsv_of hdb rfl⟩
                · rename_i bv
                  split at h
                  · exact absurd h (by simp)
                  · rename_i bytes hbytes
                    simp only [Except.ok.injEq] at h
                    subst h
                    exact ⟨hmem, fun _ => rfl, fun hdb => hsv_of hdb rfl⟩
      · exact absurd h (by simp)
      · exact absurd h (by simp)

theorem processEntries_ok_mem {es : List (String × Json)}
    {m : List (String × MessageAttributeValue)} (h : processEntries es = .ok m) :
    ∀ q ∈ m, ∃ key v, processAttr key v = .ok q.2 := by
  induction es generalizing m with
  | nil =>
    simp only [processEntries, Except.ok.injEq] at h
    subst h
    simp
  | cons hd tl ih =>
    obtain ⟨key, v⟩ := hd
    simp only [processEntries] at h
    cases hpa : processAttr key v with
    | error e => rw [hpa] at h; simp at h
    | ok attr =>
      rw [hpa] at h
      cases hpe : processEntries tl with
      | error e => rw [hpe] at h; simp at h
      | ok tlm =>
        rw [hpe] at h
        simp only [Except.ok.injEq] at h
        subst h
        intro q hq
        rcases List.mem_cons.mp hq with rfl | hq2
        · exact ⟨key, v, hpa⟩
        · exact ih hpe q hq2

/-- Claim C8 (amended): every attribute produced by a successful
`parseMessageAttributes` has a `DataType` from the closed enum and carries the
payload that type requires — a textual value for String, Number and
String.Array, a binary payload for Binary.  (The original claim's "exactly
one payload" and "no textual value for Binary" fail: when the input supplies
both fields the produced attribute carries both — see the counterexample.) -/
theorem parseMessageAttributes_payload_invariant {s : String}
    {m : List (String × MessageAttributeValue)}
    (h : parseMessageAttributes s = .ok m) :
    ∀ q ∈ m, q.2.DataType ∈ validDataTypes ∧
      (q.2.DataType = "Binary" → q.2.BinaryValue.isSome = true) ∧
      (q.2.DataType ≠ "Binary" → q.2.StringValue.isSome = true) := by
  have hinner : parseAttributesInner s = .ok m := by
    cases hi : parseAttributesInner s with
    | ok mm =>
      simp only [parseMessageAttributes, hi, Except.ok.injEq] at h
      rw [h]
    | error e =>
      simp [parseMessageAttributes, hi] at h
  cases hj : jsonParse s with
  | error e => simp [parseAttributesInner, hj] at hinner
  | ok parsed =>
    cases hent : jsEntries parsed with
    | error e => simp [parseAttributesInner, hj, hent] at hinner
    | ok entries =>
      by_cases hlen : entries.length > 10
      · simp [parseAttributesInner, hj, hent, hlen] at hinner
      · rw [show parseAttributesInner s = processEntries entries by
            simp [parseAttributesInner, hj, hent, hlen]] at hinner
        intro q hq
        obtain ⟨key, v, hpa⟩ := processEntries_ok_mem hinner q hq
        exact processAttr_ok_inv hpa

/-- Counterexample to claim C8 as stated: an input supplying a Binary
attribute with BOTH a `StringValue` and a `BinaryValue` is accepted, and the
produced attribute carries both payloads — the textual value is not dropped
for Binary. -/
theorem attributes_payload_claim_counterexample :
    parseMessageAttributes
        "\x7b\"a\":\x7b\"DataType\":\"Binary\",\"StringValue\":\"x\",\"BinaryValue\":\"aGk=\"\x7d\x7d" =
      .ok [("a", { DataType := "Binary", StringValue := some "x",
                   BinaryValue := some [104, 105] })] ∧
    ({ DataType := "Binary", StringValue := some "x",
       BinaryValue := some [104, 105] } : MessageAttributeValue).StringValue.isSome
      = true ∧
    ({ DataType := "Binary", StringValue := some "x",
       BinaryValue := some [104, 105] } : MessageAttributeValue).BinaryValue.isSome
      = true :=
  ⟨rfl, rfl, rfl⟩

/-- Witness for claim C8: the mapping produced from a Binary attribute
satisfies the payload invariant. -/
theorem parseMessageAttributes_payload_invariant_witness :
    ("Binary" : String) ∈ validDataTypes ∧
    (some [104, 105] : Option (List Nat)).isSome = true :=
  have hinv := @parseMessageAttributes_payload_invariant
    "\x7b\"B\":\x7b\"DataType\":\"Binary\",\"BinaryValue\":\"aGk=\"\x7d\x7d"
    [("B", { DataType := "Binary", BinaryValue := some [104, 105] })]
    (by rfl)
    ("B", { DataType := "Binary", BinaryValue := some [104, 105] }) (by simp)
  ⟨hinv.1, hinv.2.1 rfl⟩

end SnsSend
